import Mathlib

/-!
Verification of the tunnel socket server (`herald/tunnel/server.py`) of the
cohorte-herald repository, together with the message bean construction
facts of `herald/beans.py` that the server relies on.

The Python class `SocketTunnelIn` is embedded shallowly: its mutable state
becomes a Lean structure, every method becomes a pure function from a state
(plus the outcomes of the external world: accepted sockets, RPC replies,
socket errors) to a new state together with the lists of socket operations
and messaging operations the method performs.  Python dictionaries become
association lists, Python sets become duplicate-free lists, raised
exceptions become `Except` results or an explicit escaping-exception
component.

The embedding has two layers.  The frame layer (`onAccept`, `onClose`,
`close`, `setup`) treats each `beans.Message(subject, content)` call as
yielding its frame, so execution continues past it; it over-approximates
the real code — every state the program reaches is reachable in it — and
carries the LinkTable invariants.  The call layer (`onAcceptPy`,
`onClosePy`, `onRecvPy`, `closePy`, `setupTy`) is faithful to the calls:
the constructor raises `TypeError` (as `callMessage` derives from its
signature and the two-argument call sites), handlers stop where the
program stops, and `setup` keeps the socket-type dependence of the
`listen` step.
-/

/-! ### Association lists (Python `dict`) and sets (Python `set`) -/

def dget : List (Nat × Nat) → Nat → Option Nat
  | [], _ => none
  | (k, v) :: d, k2 => if k2 = k then some v else dget d k2

def dremove : List (Nat × Nat) → Nat → List (Nat × Nat)
  | [], _ => []
  | (k, v) :: d, k2 => if k2 = k then dremove d k2 else (k, v) :: dremove d k2

def dset (d : List (Nat × Nat)) (k v : Nat) : List (Nat × Nat) :=
  (k, v) :: dremove d k

def sadd (l : List Nat) (s : Nat) : List Nat :=
  if s ∈ l then l else s :: l

def srem : List Nat → Nat → List Nat
  | [], _ => []
  | x :: l, s => if s = x then srem l s else x :: srem l s

def dkeys (d : List (Nat × Nat)) : List Nat := d.map Prod.fst

/-! ### Base64 (Python `base64.b64encode` / `base64.b64decode`)

Bytes are natural numbers below 256, encoded strings are lists of ASCII
codes.  The alphabet and padding follow RFC 4648, which is what the Python
standard library implements. -/

def encChar (s : Nat) : Nat :=
  if s < 26 then 65 + s
  else if s < 52 then 71 + s
  else if s < 62 then s - 4
  else if s = 62 then 43
  else 47

def decChar (c : Nat) : Nat :=
  if 65 ≤ c ∧ c ≤ 90 then c - 65
  else if 97 ≤ c ∧ c ≤ 122 then c - 71
  else if 48 ≤ c ∧ c ≤ 57 then c + 4
  else if c = 43 then 62
  else 63

def b64encode : List Nat → List Nat
  | [] => []
  | [a] => [encChar (a / 4), encChar (a % 4 * 16), 61, 61]
  | [a, b] => [encChar (a / 4), encChar (a % 4 * 16 + b / 16),
               encChar (b % 16 * 4), 61]
  | a :: b :: c :: rest =>
      encChar (a / 4) :: encChar (a % 4 * 16 + b / 16) ::
      encChar (b % 16 * 4 + c / 64) :: encChar (c % 64) :: b64encode rest

def b64decode : List Nat → List Nat
  | c1 :: c2 :: c3 :: c4 :: rest =>
      if c3 = 61 then
        [decChar c1 * 4 + decChar c2 / 16]
      else if c4 = 61 then
        [decChar c1 * 4 + decChar c2 / 16,
         decChar c2 % 16 * 16 + decChar c3 / 4]
      else
        (decChar c1 * 4 + decChar c2 / 16) ::
        (decChar c2 % 16 * 16 + decChar c3 / 4) ::
        (decChar c3 % 4 * 64 + decChar c4) :: b64decode rest
  | _ => []

/-! ### Data model of `SocketTunnelIn` (`herald/tunnel/server.py`)

Socket handles and peers are abstract natural numbers.  A message is the
logical frame handed to `beans.Message(subject, content)`: its subject
string and the fields of its content dictionary. -/

abbrev Sock := Nat

abbrev Peer := Nat

/-- The logical wire frame: subject plus the content dictionary fields
(`tunnel`, `link_id`, `data`), each optional because different subjects
carry different keys. -/
structure Msg where
  subject : String
  tunnel : Option String
  link_id : Option Nat
  data : Option (List Nat)
deriving DecidableEq, Repr

/-- Content of the `create_link` request built in `_on_accept`. -/
def createLinkMsg (uid : Option String) (i : Nat) : Msg :=
  ⟨"herald/tunnel/create_link", uid, some i, none⟩

/-- Content of the `data` frame built in `_on_recv`; the payload is the
base64 encoding of the chunk read from the client socket. -/
def dataMsg (uid : Option String) (i : Nat) (payload : List Nat) : Msg :=
  ⟨"herald/tunnel/data", uid, some i, some payload⟩

/-- Content of the `close_link` notification built in `_on_close`. -/
def closeLinkMsg (uid : Option String) (i : Nat) : Msg :=
  ⟨"herald/tunnel/close_link", uid, some i, none⟩

/-- Content of the tunnel `close` notification built in `close`. -/
def closeMsg (uid : Option String) : Msg :=
  ⟨"herald/tunnel/close", uid, none, none⟩

/-- An operation performed on a local socket. -/
inductive SockOp where
  | shutdown (s : Sock)
  | close (s : Sock)
  | write (s : Sock) (data : List Nat)
deriving DecidableEq, Repr

/-- An operation performed through the Herald messaging service: `fire`
is best-effort, `send` is the synchronous round trip.  The peer argument
mirrors `self.__peer`, hence optional. -/
inductive HerOp where
  | fire (p : Option Peer) (m : Msg)
  | send (p : Option Peer) (m : Msg)
deriving DecidableEq, Repr

/-- The mutable state of one `SocketTunnelIn` instance, one field per
Python attribute set in `__init__`. -/
structure SocketTunnelIn where
  peer : Option Peer
  tunnel_uid : Option String
  server_socks : List Sock
  clients_socks : List Sock
  next_id : Nat
  link_sock : List (Nat × Sock)
  sock_link : List (Sock × Nat)
  running : Bool
deriving DecidableEq, Repr

/-- The state right after `__init__`. -/
def initState : SocketTunnelIn :=
  ⟨none, none, [], [], 0, [], [], true⟩

/-- `link(tunnel_uid, out_peer)`: records the tunnel uid and the output
peer, touching nothing else. -/
def SocketTunnelIn.link (st : SocketTunnelIn) (uid : String) (out_peer : Peer) :
    SocketTunnelIn :=
  { st with tunnel_uid := some uid, peer := some out_peer }

/-! ### `setup` (AddressBinder)

`socket.getaddrinfo` is the external resolver: `none` means it raised
`socket.gaierror`, otherwise it returns the candidate list; each candidate
records whether its create+bind+listen sequence succeeds (a `socket.error`
on any of the three steps makes the candidate fail and be skipped). -/

inductive SockTy where
  | stream
  | dgram
deriving DecidableEq, Repr

/-- One entry of the `getaddrinfo` result: the socket handle that binding
it would produce and whether create+bind+listen succeeds for it. -/
structure AddrCand where
  sock : Sock
  ok : Bool
deriving DecidableEq, Repr

/-- The errors `setup` can let escape. -/
inductive SetupErr where
  | gaierror
  | bindError
deriving DecidableEq, Repr

/-- The per-candidate loop of `setup`: sockets of failing candidates are
skipped (logged), sockets of succeeding candidates are appended. -/
def bindCands : List AddrCand → List Sock
  | [] => []
  | c :: cs => if c.ok then c.sock :: bindCands cs else bindCands cs

/-- `setup(address, port, sock_type)`.  `addr_info` is the outcome of
`socket.getaddrinfo(address, port, type=sock_type)`; its failure
(`socket.gaierror`) escapes uncaught.  The bound sockets are appended to
`self.__server_socks`; if that list is empty afterwards, a
`socket.error` (the bind error) is raised, else `True` is returned. -/
def SocketTunnelIn.setup (st : SocketTunnelIn) (sock_type : SockTy)
    (addr_info : Option (List AddrCand)) :
    Except SetupErr (SocketTunnelIn × Bool) :=
  match sock_type, addr_info with
  | _, none => .error .gaierror
  | _, some cands =>
    let socks := st.server_socks ++ bindCands cands
    if socks = [] then .error .bindError
    else .ok ({ st with server_socks := socks }, true)

/-! ### Event handlers -/

/-- Outcome of the synchronous `create_link` RPC in `_on_accept`: a reply
carrying its `success` flag, or a raised `HeraldException`. -/
inductive RpcOut where
  | reply (success : Bool)
  | exn
deriving DecidableEq, Repr

/-- Frame-layer model of `_on_accept(server_sock)`.  `acceptRes` is the
outcome of `server_sock.accept()` (`none` when it raised `IOError`);
`shutdownOk` tells whether `clt_sock.shutdown` would succeed on the
failure paths.  This layer treats the `beans.Message` construction as
yielding its frame so that execution continues into the RPC branches;
the real call raises `TypeError` there (see `callMessage` and
`SocketTunnelIn.onAcceptPy`), so this model over-approximates: every
state the real code reaches is reached here too, which is the direction
that makes invariant claims harder.  Faithful to the source branch
structure: the failure-reply branch closes the socket in a `finally`,
the exception branch only in the `else` of the shutdown `try`. -/
def SocketTunnelIn.onAccept (st : SocketTunnelIn) (acceptRes : Option Sock)
    (rpc : RpcOut) (shutdownOk : Bool) :
    SocketTunnelIn × List SockOp × List HerOp :=
  match acceptRes with
  | none => (st, [], [])
  | some clt =>
    let link_id := st.next_id
    let st1 := { st with next_id := st.next_id + 1 }
    let msg := createLinkMsg st1.tunnel_uid link_id
    match rpc with
    | .reply true =>
      ({ st1 with link_sock := dset st1.link_sock link_id clt,
                  sock_link := dset st1.sock_link clt link_id,
                  clients_socks := sadd st1.clients_socks clt },
       [], [HerOp.send st1.peer msg])
    | .reply false =>
      (st1, [SockOp.shutdown clt, SockOp.close clt], [HerOp.send st1.peer msg])
    | .exn =>
      (st1,
       if shutdownOk then [SockOp.shutdown clt, SockOp.close clt]
       else [SockOp.shutdown clt],
       [HerOp.send st1.peer msg])

/-- Frame-layer model of `_on_close(clt_sock)`.  A socket absent from
`self.__clients_socks` is ignored (the `KeyError` of `set.remove` is
caught).  For a present socket the two dictionary removals must both
find their key, otherwise the uncaught `KeyError` escapes
(`Except.error`).  The `close_link` frame is modelled as constructed;
see `SocketTunnelIn.onClosePy` for the call-level semantics where that
construction raises after the same state mutations. -/
def SocketTunnelIn.onClose (st : SocketTunnelIn) (clt : Sock) :
    Except Unit (SocketTunnelIn × List SockOp × List HerOp) :=
  if clt ∈ st.clients_socks then
    match dget st.sock_link clt with
    | none => .error ()
    | some link_id =>
      if (dget st.link_sock link_id).isSome then
        .ok ({ st with clients_socks := srem st.clients_socks clt,
                       sock_link := dremove st.sock_link clt,
                       link_sock := dremove st.link_sock link_id },
             [SockOp.shutdown clt, SockOp.close clt],
             [HerOp.fire st.peer (closeLinkMsg st.tunnel_uid link_id)])
      else .error ()
  else .ok (st, [], [])

/-- `send(link_id, data)`: look the link up, log an unknown id, else
write the base64-decoded bytes back to the client socket. -/
def SocketTunnelIn.send (st : SocketTunnelIn) (link_id : Nat) (data : List Nat) :
    List SockOp :=
  match dget st.link_sock link_id with
  | none => []
  | some sock => [SockOp.write sock (b64decode data)]

/-! ### `close` (TunnelController teardown) -/

/-- Shutdown-then-close of every server socket in order (`shutdown`
failures are swallowed, `close` runs in a `finally`). -/
def sockCloseOps : List Sock → List SockOp
  | [] => []
  | s :: l => SockOp.shutdown s :: SockOp.close s :: sockCloseOps l

/-- The `for sock in list(self.__clients_socks): self._on_close(sock)`
loop of `close`, over the snapshot taken when the loop starts. -/
def closeClients (st : SocketTunnelIn) :
    List Sock → Except Unit (SocketTunnelIn × List SockOp × List HerOp)
  | [] => .ok (st, [], [])
  | c :: cs =>
    match st.onClose c with
    | .error e => .error e
    | .ok (st1, ops1, hops1) =>
      match closeClients st1 cs with
      | .error e => .error e
      | .ok (st2, ops2, hops2) => .ok (st2, ops1 ++ ops2, hops1 ++ hops2)

/-- Frame-layer model of `close(send_close=True)`: clear the running
flag, shutdown+close and drop every server socket, run `_on_close` on
every client socket, clear the client set, fire one tunnel `close`
frame when requested and a peer is set, then drop the uid and the peer
reference.  See `SocketTunnelIn.closePy` for the call-level semantics
where the frame construction raises before the final cleanup. -/
def SocketTunnelIn.close (st : SocketTunnelIn) (send_close : Bool) :
    Except Unit (SocketTunnelIn × List SockOp × List HerOp) :=
  let st0 := { st with running := false }
  let serverOps := sockCloseOps st0.server_socks
  let st1 := { st0 with server_socks := [] }
  match closeClients st1 st1.clients_socks with
  | .error e => .error e
  | .ok (st2, cops, chops) =>
    let st3 := { st2 with clients_socks := [] }
    let fireOps :=
      if send_close && st3.peer.isSome then
        [HerOp.fire st3.peer (closeMsg st3.tunnel_uid)]
      else []
    .ok ({ st3 with tunnel_uid := none, peer := none },
         serverOps ++ cops, chops ++ fireOps)

/-! ### The LinkTable invariant and reachable states -/

/-- The LinkTable invariant of one `SocketTunnelIn` state: both
dictionaries have unique keys, they contain converse pairs, the polled
client set is exactly the registered connections, and every allocated
link id is below the counter. -/
def LinkInv (st : SocketTunnelIn) : Prop :=
  (dkeys st.sock_link).Nodup ∧
  (dkeys st.link_sock).Nodup ∧
  (∀ p ∈ st.sock_link, (p.2, p.1) ∈ st.link_sock) ∧
  (∀ q ∈ st.link_sock, (q.2, q.1) ∈ st.sock_link) ∧
  (∀ s ∈ st.clients_socks, (dget st.sock_link s).isSome = true) ∧
  (∀ p ∈ st.sock_link, p.1 ∈ st.clients_socks) ∧
  (∀ q ∈ st.link_sock, q.1 < st.next_id)

instance (st : SocketTunnelIn) : Decidable (LinkInv st) := by
  unfold LinkInv
  infer_instance

/-- Iterated `srem`, the effect of the client loop of `close` on the
client set. -/
def srems (cl : List Nat) : List Nat → List Nat
  | [] => cl
  | c :: cs => srems (srem cl c) cs

/-- Number of messaging operations carrying a given subject. -/
def countSubj (subj : String) : List HerOp → Nat
  | [] => 0
  | HerOp.fire _ m :: l => (if m.subject = subj then 1 else 0) + countSubj subj l
  | HerOp.send _ m :: l => (if m.subject = subj then 1 else 0) + countSubj subj l

/-- States reachable from `__init__` through the operations of the class.
The side condition of `acceptStep` reflects that `server_sock.accept()`
always hands out a fresh socket object, never one already registered. -/
inductive Reach : SocketTunnelIn → Prop where
  | base : Reach initState
  | setupStep (st : SocketTunnelIn) (ty : SockTy) (ai : Option (List AddrCand))
      (st2 : SocketTunnelIn) (b : Bool) :
      Reach st → st.setup ty ai = .ok (st2, b) → Reach st2
  | linkStep (st : SocketTunnelIn) (uid : String) (p : Peer) :
      Reach st → Reach (st.link uid p)
  | acceptStep (st : SocketTunnelIn) (res : Option Sock) (rpc : RpcOut)
      (sok : Bool) :
      Reach st → (∀ clt, res = some clt → dget st.sock_link clt = none) →
      Reach (st.onAccept res rpc sok).1
  | closeLinkStep (st : SocketTunnelIn) (clt : Sock) (st2 : SocketTunnelIn)
      (ops : List SockOp) (hops : List HerOp) :
      Reach st → st.onClose clt = .ok (st2, ops, hops) → Reach st2
  | closeStep (st : SocketTunnelIn) (b : Bool) (st2 : SocketTunnelIn)
      (ops : List SockOp) (hops : List HerOp) :
      Reach st → st.close b = .ok (st2, ops, hops) → Reach st2

/-! ### Sequences of accepted connections -/

/-- The link ids named in the `create_link` requests of a list of
messaging operations, in order. -/
def linkIdsOf : List HerOp → List Nat
  | [] => []
  | HerOp.send _ m :: l =>
    (if m.subject = "herald/tunnel/create_link" then m.link_id.toList else [])
      ++ linkIdsOf l
  | HerOp.fire _ _ :: l => linkIdsOf l

/-- One `_on_accept` event: the accept outcome, the RPC outcome and the
shutdown outcome used on the failure paths. -/
structure AcceptEv where
  res : Option Sock
  rpc : RpcOut
  sok : Bool
deriving DecidableEq, Repr

/-- Run a sequence of `_on_accept` events, collecting the link ids
allocated (as named in the emitted `create_link` requests). -/
def runAccepts (st : SocketTunnelIn) : List AcceptEv → SocketTunnelIn × List Nat
  | [] => (st, [])
  | e :: evs =>
    let out := st.onAccept e.res e.rpc e.sok
    let rest := runAccepts out.1 evs
    (rest.1, linkIdsOf out.2.2 ++ rest.2)

/-- Number of events whose accept system call succeeded. -/
def countAccepted : List AcceptEv → Nat
  | [] => 0
  | e :: evs => (match e.res with | some _ => 1 | none => 0) + countAccepted evs

/-- Consecutive ids starting at `start`. -/
def idRange (start : Nat) : Nat → List Nat
  | 0 => []
  | n + 1 => start :: idRange (start + 1) n

/-! ### `beans.Message.__init__` (`herald/beans.py`)

The server builds every wire frame through `beans.Message(subject,
content)`.  This section embeds the call semantics of that constructor:
Python binds positional arguments to parameters, raising `TypeError` when
a parameter without default stays unbound, and the body resolves each
bare name against locals, module globals and builtins, raising
`NameError` at the first name that none of them defines. -/

/-- The parameters of `Message.__init__`, `self` included, in order. -/
def messageInitParams : List String :=
  ["self", "target_id", "target_type", "subject", "content", "sender_uid",
   "send_mode", "replies_to"]

/-- How many trailing parameters carry a default value. -/
def messageInitDefaults : Nat := 4

/-- Parameters that must be bound positionally when the constructor is
called without keywords: all non-`self` parameters minus the defaults. -/
def messageInitRequired : Nat :=
  messageInitParams.length - 1 - messageInitDefaults

/-- The names bound at module level in `herald/beans.py`: the dunder
assignments, the four imports and the five classes. -/
def beansModuleNames : List String :=
  ["__version_info__", "__version__", "__docformat__", "functools",
   "threading", "time", "uuid", "json", "Peer", "Target", "RawAccess",
   "DelayedNotification", "Message", "MessageReceived"]

/-- The Python builtins referenced by the body of `Message.__init__`. -/
def pyBuiltins : List String := ["str", "int"]

/-- Bare (non-attribute) names read by the body of `Message.__init__`,
in execution order. -/
def messageInitBodyNames : List String :=
  ["HERALD_SPECIFICATION_VERSION", "str", "uuid", "MESSAGE_HEADER_UID",
   "int", "time", "MESSAGE_HEADER_TIMESTAMP", "MESSAGE_HEADER_SENDER_UID",
   "sender_uid", "MESSAGE_HEADER_SEND_MODE", "send_mode",
   "MESSAGE_HEADER_REPLIES_TO", "replies_to", "target_type", "target",
   "subject", "content"]

/-- Whether a bare name in the body of `Message.__init__` resolves. -/
def resolvable (n : String) : Bool :=
  n ∈ messageInitParams || n ∈ beansModuleNames || n ∈ pyBuiltins

/-- Result of calling `beans.Message` with some number of positional
arguments. -/
inductive CallOutcome where
  | typeError
  | nameError (n : String)
  | mkOk
deriving DecidableEq, Repr

def CallOutcome.isOk : CallOutcome → Bool
  | .mkOk => true
  | _ => false

/-- Calling `beans.Message(...)` with `posArgs` positional arguments:
too few arguments is a `TypeError`; otherwise the body runs and stops at
its first unresolvable bare name with a `NameError`. -/
def callMessage (posArgs : Nat) : CallOutcome :=
  if posArgs < messageInitRequired then .typeError
  else
    match messageInitBodyNames.filter (fun n => !(resolvable n)) with
    | [] => .mkOk
    | n :: _ => .nameError n

/-- The four `beans.Message(subject, content)` construction sites in
`server.py`, with the number of positional arguments each passes. -/
def serverMessageCalls : List (String × Nat) :=
  [("herald/tunnel/create_link", 2), ("herald/tunnel/data", 2),
   ("herald/tunnel/close_link", 2), ("herald/tunnel/close", 2)]

/-! ### Faithful call-level semantics of the handlers

Every wire frame of `server.py` is built through `beans.Message(subject,
content)` with two positional arguments.  The layer below routes each
construction through the embedded constructor semantics (`callMessage`):
the frame exists only if that call succeeds, and since it raises
`TypeError`, these handlers stop where the real control flow stops,
while the state mutations and socket operations executed before the
construction persist.  The fourth component of each result is the
escaping exception, `none` for a normal return. -/

/-- A Python exception escaping a handler. -/
inductive PyErr where
  | typeError
  | nameError (n : String)
  | keyError
deriving DecidableEq, Repr

/-- Construct one wire frame through `beans.Message(subject, content)`:
every construction site of `server.py` passes two positional arguments
(see `serverMessageCalls`), so the outcome is decided by
`callMessage 2`. -/
def buildMessage (subject : String) (tunnel : Option String)
    (link_id : Option Nat) (data : Option (List Nat)) : Except PyErr Msg :=
  match callMessage 2 with
  | .mkOk => .ok ⟨subject, tunnel, link_id, data⟩
  | .typeError => .error .typeError
  | .nameError n => .error (.nameError n)

/-- `_on_accept`, call-level: after a successful accept the lock block
consumes the next id, then `beans.Message` at server.py line 244 is
evaluated *before* the `try` guarding the RPC; when it raises, the
`TypeError` escapes with the socket neither closed nor registered and no
RPC performed.  The RPC branches are kept as in the source; they run
only if the construction succeeds. -/
def SocketTunnelIn.onAcceptPy (st : SocketTunnelIn) (acceptRes : Option Sock)
    (rpc : RpcOut) (sok : Bool) :
    SocketTunnelIn × List SockOp × List HerOp × Option PyErr :=
  match acceptRes with
  | none => (st, [], [], none)
  | some clt =>
    let link_id := st.next_id
    let st1 := { st with next_id := st.next_id + 1 }
    match buildMessage "herald/tunnel/create_link" st1.tunnel_uid
        (some link_id) none with
    | .error e => (st1, [], [], some e)
    | .ok msg =>
      match rpc with
      | .reply true =>
        ({ st1 with link_sock := dset st1.link_sock link_id clt,
                    sock_link := dset st1.sock_link clt link_id,
                    clients_socks := sadd st1.clients_socks clt },
         [], [HerOp.send st1.peer msg], none)
      | .reply false =>
        (st1, [SockOp.shutdown clt, SockOp.close clt],
         [HerOp.send st1.peer msg], none)
      | .exn =>
        (st1,
         if sok then [SockOp.shutdown clt, SockOp.close clt]
         else [SockOp.shutdown clt],
         [HerOp.send st1.peer msg], none)

/-- `_on_close`, call-level: the lock-block removals and the
shutdown-then-close of the socket all precede the `beans.Message` call
at server.py line 307, so they persist when that call raises; an
unregistered socket still returns normally with no side effects.  The
two `keyError` arms model the uncaught dictionary misses of dead code
paths, with the mutations already performed at the raising point. -/
def SocketTunnelIn.onClosePy (st : SocketTunnelIn) (clt : Sock) :
    SocketTunnelIn × List SockOp × List HerOp × Option PyErr :=
  if clt ∈ st.clients_socks then
    match dget st.sock_link clt with
    | none =>
      ({ st with clients_socks := srem st.clients_socks clt }, [], [],
       some .keyError)
    | some link_id =>
      if (dget st.link_sock link_id).isSome then
        match buildMessage "herald/tunnel/close_link" st.tunnel_uid
            (some link_id) none with
        | .error e =>
          ({ st with clients_socks := srem st.clients_socks clt,
                     sock_link := dremove st.sock_link clt,
                     link_sock := dremove st.link_sock link_id },
           [SockOp.shutdown clt, SockOp.close clt], [], some e)
        | .ok msg =>
          ({ st with clients_socks := srem st.clients_socks clt,
                     sock_link := dremove st.sock_link clt,
                     link_sock := dremove st.link_sock link_id },
           [SockOp.shutdown clt, SockOp.close clt],
           [HerOp.fire st.peer msg], none)
      else
        ({ st with clients_socks := srem st.clients_socks clt,
                   sock_link := dremove st.sock_link clt }, [], [],
         some .keyError)
  else (st, [], [], none)

/-- `_on_recv`, call-level: an unknown socket is ignored; for a known
one, `beans.Message` at server.py line 327 is evaluated before the
`try` guarding the fire, so when it raises nothing is emitted.  No
state is mutated on any path. -/
def SocketTunnelIn.onRecvPy (st : SocketTunnelIn) (clt : Sock)
    (data : List Nat) : List HerOp × Option PyErr :=
  match dget st.sock_link clt with
  | none => ([], none)
  | some link_id =>
    match buildMessage "herald/tunnel/data" st.tunnel_uid (some link_id)
        (some (b64encode data)) with
    | .error e => ([], some e)
    | .ok msg => ([HerOp.fire st.peer msg], none)

/-- The client loop of `close`, call-level: an exception escaping
`_on_close` aborts the loop, leaving the remaining clients
unprocessed. -/
def closeClientsPy (st : SocketTunnelIn) :
    List Sock → SocketTunnelIn × List SockOp × List HerOp × Option PyErr
  | [] => (st, [], [], none)
  | c :: cs =>
    match st.onClosePy c with
    | (st1, ops1, hops1, some e) => (st1, ops1, hops1, some e)
    | (st1, ops1, hops1, none) =>
      match closeClientsPy st1 cs with
      | (st2, ops2, hops2, e2) => (st2, ops1 ++ ops2, hops1 ++ hops2, e2)

/-- `close`, call-level: the server sockets are closed and dropped
first; then the client loop runs; then, when requested and a peer is
set, `beans.Message` at server.py line 169 is evaluated — when it
raises, the `herald/tunnel/close` frame is never fired and the trailing
cleanup of `tunnel_uid` and `peer` (lines 174-175) never runs. -/
def SocketTunnelIn.closePy (st : SocketTunnelIn) (send_close : Bool) :
    SocketTunnelIn × List SockOp × List HerOp × Option PyErr :=
  let st0 := { st with running := false }
  let serverOps := sockCloseOps st0.server_socks
  let st1 := { st0 with server_socks := [] }
  match closeClientsPy st1 st1.clients_socks with
  | (st2, cops, chops, some e) => (st2, serverOps ++ cops, chops, some e)
  | (st2, cops, chops, none) =>
    let st3 := { st2 with clients_socks := [] }
    if send_close && st3.peer.isSome then
      match buildMessage "herald/tunnel/close" st3.tunnel_uid none none with
      | .error e => (st3, serverOps ++ cops, chops, some e)
      | .ok msg =>
        ({ st3 with tunnel_uid := none, peer := none },
         serverOps ++ cops, chops ++ [HerOp.fire st3.peer msg], none)
    else
      ({ st3 with tunnel_uid := none, peer := none },
       serverOps ++ cops, chops, none)

/-! ### Socket-type-aware `setup`

`AddrCand.ok` folds create+bind+listen into one flag; the refinement
below keeps the create+bind outcome per candidate and models
`sock.listen(10)` at server.py line 124 as it behaves on the two types:
it succeeds on a bound stream socket and deterministically raises
`EOPNOTSUPP` on a datagram socket, where the `except socket.error` then
skips the candidate. -/

/-- One resolved candidate: the socket it would yield and whether
creating and binding it succeeds. -/
structure BindCand where
  sock : Sock
  bindOk : Bool
deriving DecidableEq, Repr

/-- Outcome of `sock.listen(10)` on a freshly bound socket of the given
type: streams listen, datagram sockets raise `EOPNOTSUPP`. -/
def listenOk : SockTy → Bool
  | .stream => true
  | .dgram => false

/-- The per-candidate loop of `setup` with the type-dependent listen
step: a candidate is retained only if create+bind succeeded and listen
succeeded for this socket type. -/
def bindCandsTy (ty : SockTy) : List BindCand → List Sock
  | [] => []
  | c :: cs =>
    if c.bindOk && listenOk ty then c.sock :: bindCandsTy ty cs
    else bindCandsTy ty cs

/-- `setup(address, port, sock_type)` over the refined candidates. -/
def SocketTunnelIn.setupTy (st : SocketTunnelIn) (sock_type : SockTy)
    (addr_info : Option (List BindCand)) :
    Except SetupErr (SocketTunnelIn × Bool) :=
  match addr_info with
  | none => .error .gaierror
  | some cands =>
    let socks := st.server_socks ++ bindCandsTy sock_type cands
    if socks = [] then .error .bindError
    else .ok ({ st with server_socks := socks }, true)

/-! ### Concrete states and behavior predicates used by the claims -/

/-- A linked session holding one registered link `(5 ↦ 0)`. -/
def wSt1 : SocketTunnelIn :=
  ((initState.link "t" 7).onAccept (some 5) (.reply true) true).1

/-- A linked but idle session, used for the accept failure paths. -/
def stC3 : SocketTunnelIn := initState.link "tunnel-1" 7

/-- A session with one registered link `(5 ↦ 0)`, written out. -/
def stC6 : SocketTunnelIn :=
  { peer := some 4, tunnel_uid := some "t", server_socks := [2],
    clients_socks := [5], next_id := 1, link_sock := [(0, 5)],
    sock_link := [(5, 0)], running := true }

/-- A linked session with no clients and one server socket. -/
def stC7 : SocketTunnelIn :=
  { peer := some 4, tunnel_uid := some "t", server_socks := [2],
    clients_socks := [], next_id := 0, link_sock := [],
    sock_link := [], running := true }

/-- The state produced by closing a fresh session. -/
def stC8 : SocketTunnelIn := { initState with running := false }

/-- A session with two registered links `(5 ↦ 0)` and `(6 ↦ 1)`. -/
def stC9 : SocketTunnelIn :=
  { peer := some 4, tunnel_uid := some "t", server_socks := [2],
    clients_socks := [5, 6], next_id := 2, link_sock := [(0, 5), (1, 6)],
    sock_link := [(5, 0), (6, 1)], running := true }

/-- What `_on_close` does to the registered link `(c ↦ i)` at the call
level: removes exactly that pair from both maps and the client set,
shuts down and closes only that socket, fires nothing (the `close_link`
construction raises `TypeError`), and leaves every other link, the
server sockets, the run flag and the counter untouched. -/
def OnCloseEffect (st : SocketTunnelIn) (c : Sock) (i : Nat) : Prop :=
  ∃ st2, st.onClosePy c
      = (st2, [SockOp.shutdown c, SockOp.close c], [], some PyErr.typeError) ∧
    dget st2.sock_link c = none ∧ dget st2.link_sock i = none ∧
    c ∉ st2.clients_socks ∧
    (∀ c2, c2 ≠ c → dget st2.sock_link c2 = dget st.sock_link c2) ∧
    (∀ c2, c2 ≠ c → (c2 ∈ st2.clients_socks ↔ c2 ∈ st.clients_socks)) ∧
    (∀ i2, i2 ≠ i → dget st2.link_sock i2 = dget st.link_sock i2) ∧
    st2.server_socks = st.server_socks ∧ st2.running = st.running ∧
    st2.next_id = st.next_id ∧ st2.peer = st.peer ∧
    st2.tunnel_uid = st.tunnel_uid

/-! ### Lemmas on association lists and sets -/

theorem dget_dremove (d : List (Nat × Nat)) (k k2 : Nat) :
    dget (dremove d k) k2 = if k2 = k then none else dget d k2 := by
  induction d with
  | nil => simp [dremove, dget]
  | cons p d ih =>
    obtain ⟨a, b⟩ := p
    simp only [dremove]
    split_ifs with hka hkk hkk
    · subst hka; rw [ih]; simp [dget, hkk]
    · subst hka; rw [ih]; simp [dget, hkk]
    · subst hkk
      simp [dget, hka, ih]
    · by_cases h2 : k2 = a <;> simp [dget, h2, ih, hkk]

theorem dget_dset (d : List (Nat × Nat)) (k v k2 : Nat) :
    dget (dset d k v) k2 = if k2 = k then some v else dget d k2 := by
  by_cases h : k2 = k <;> simp [dset, dget, h, dget_dremove]

theorem mem_dremove {p : Nat × Nat} {d : List (Nat × Nat)} {k : Nat} :
    p ∈ dremove d k ↔ p ∈ d ∧ p.1 ≠ k := by
  induction d with
  | nil => simp [dremove]
  | cons q d ih =>
    obtain ⟨a, b⟩ := q
    simp only [dremove]
    split_ifs with hka
    · subst hka
      rw [ih]
      constructor
      · intro h; exact ⟨List.mem_cons_of_mem _ h.1, h.2⟩
      · intro h
        rcases List.mem_cons.mp h.1 with h1 | h1
        · exfalso; apply h.2; rw [h1]
        · exact ⟨h1, h.2⟩
    · constructor
      · intro h
        rcases List.mem_cons.mp h with h1 | h1
        · subst h1; exact ⟨List.mem_cons_self _ _, by simpa using fun h => hka h.symm⟩
        · have := ih.mp h1
          exact ⟨List.mem_cons_of_mem _ this.1, this.2⟩
      · intro h
        rcases List.mem_cons.mp h.1 with h1 | h1
        · subst h1; exact List.mem_cons_self _ _
        · exact List.mem_cons_of_mem _ (ih.mpr ⟨h1, h.2⟩)

theorem mem_dset {p : Nat × Nat} {d : List (Nat × Nat)} {k v : Nat} :
    p ∈ dset d k v ↔ p = (k, v) ∨ (p ∈ d ∧ p.1 ≠ k) := by
  simp [dset, mem_dremove]

theorem mem_srem {x s : Nat} {l : List Nat} :
    x ∈ srem l s ↔ x ∈ l ∧ x ≠ s := by
  induction l with
  | nil => simp [srem]
  | cons y l ih =>
    simp only [srem]
    split_ifs with hsy
    · subst hsy
      rw [ih]
      constructor
      · intro h; exact ⟨List.mem_cons_of_mem _ h.1, h.2⟩
      · intro h
        rcases List.mem_cons.mp h.1 with h1 | h1
        · exact absurd h1 h.2
        · exact ⟨h1, h.2⟩
    · constructor
      · intro h
        rcases List.mem_cons.mp h with h1 | h1
        · subst h1; exact ⟨List.mem_cons_self _ _, fun h => hsy h.symm⟩
        · have := ih.mp h1
          exact ⟨List.mem_cons_of_mem _ this.1, this.2⟩
      · intro h
        rcases List.mem_cons.mp h.1 with h1 | h1
        · subst h1; exact List.mem_cons_self _ _
        · exact List.mem_cons_of_mem _ (ih.mpr ⟨h1, h.2⟩)

theorem mem_sadd {x s : Nat} {l : List Nat} :
    x ∈ sadd l s ↔ x = s ∨ x ∈ l := by
  by_cases h : s ∈ l <;> simp [sadd, h]
  intro hx; subst hx; exact h

theorem mem_of_dget {d : List (Nat × Nat)} {k v : Nat}
    (h : dget d k = some v) : (k, v) ∈ d := by
  induction d with
  | nil => simp [dget] at h
  | cons p d ih =>
    obtain ⟨a, b⟩ := p
    by_cases hk : k = a <;> simp [dget, hk] at h
    · cases h; subst hk; exact List.mem_cons_self _ _
    · exact List.mem_cons_of_mem _ (ih h)

theorem not_mem_of_dget_none {d : List (Nat × Nat)} {k : Nat}
    (h : dget d k = none) : ∀ p ∈ d, p.1 ≠ k := by
  induction d with
  | nil => simp
  | cons q d ih =>
    obtain ⟨a, b⟩ := q
    by_cases hk : k = a <;> simp [dget, hk] at h
    intro p hp
    rcases List.mem_cons.mp hp with hp1 | hp1
    · subst hp1; simpa using fun h2 => hk h2.symm
    · exact ih h p hp1

theorem dget_eq_some_of_mem {d : List (Nat × Nat)} {k v : Nat}
    (hnd : (dkeys d).Nodup) (h : (k, v) ∈ d) : dget d k = some v := by
  induction d with
  | nil => simp at h
  | cons p d ih =>
    obtain ⟨a, b⟩ := p
    simp [dkeys] at hnd
    rcases List.mem_cons.mp h with h1 | h1
    · cases h1; simp [dget]
    · have hka : k ≠ a := by
        intro hk; subst hk
        exact hnd.1 v (by simpa using h1)
      simp [dget, hka]
      exact ih hnd.2 h1

theorem dget_unique {d : List (Nat × Nat)} {k v1 v2 : Nat}
    (hnd : (dkeys d).Nodup) (h1 : (k, v1) ∈ d) (h2 : (k, v2) ∈ d) : v1 = v2 := by
  have e1 := dget_eq_some_of_mem hnd h1
  have e2 := dget_eq_some_of_mem hnd h2
  rw [e1] at e2
  exact (Option.some.injEq _ _).mp e2

theorem dkeys_dremove_nodup {d : List (Nat × Nat)} {k : Nat}
    (h : (dkeys d).Nodup) : (dkeys (dremove d k)).Nodup := by
  induction d with
  | nil => simp [dremove, dkeys]
  | cons p d ih =>
    obtain ⟨a, b⟩ := p
    simp [dkeys] at h
    simp only [dremove]
    split_ifs with hka
    · exact ih h.2
    · simp only [dkeys, List.map_cons, List.nodup_cons]
      refine ⟨?_, ih h.2⟩
      intro hx
      simp only [dkeys, List.mem_map] at hx
      obtain ⟨q, hq, hq1⟩ := hx
      have hmem := (mem_dremove.mp hq).1
      have : (a, q.2) ∈ d := by
        have : q = (a, q.2) := by
          rw [← hq1]
        rw [← this]; exact hmem
      exact h.1 q.2 this

theorem not_mem_dkeys_dremove {d : List (Nat × Nat)} {k : Nat} :
    k ∉ dkeys (dremove d k) := by
  intro h
  simp only [dkeys, List.mem_map] at h
  obtain ⟨p, hp, hk⟩ := h
  exact (mem_dremove.mp hp).2 hk

theorem dkeys_dset_nodup {d : List (Nat × Nat)} {k v : Nat}
    (h : (dkeys d).Nodup) : (dkeys (dset d k v)).Nodup := by
  simp only [dset, dkeys, List.map_cons, List.nodup_cons]
  exact ⟨fun hx => not_mem_dkeys_dremove (d := d) (k := k) hx,
         by simpa [dkeys] using dkeys_dremove_nodup (k := k) h⟩

/-! ### The base64 round trip -/

theorem decChar_encChar : ∀ s < 64, decChar (encChar s) = s := by decide

theorem encChar_ne_pad : ∀ s < 64, encChar s ≠ 61 := by decide

theorem b64decode_b64encode :
    ∀ l : List Nat, (∀ x ∈ l, x < 256) → b64decode (b64encode l) = l
  | [], _ => rfl
  | [a], h => by
    have e1 := decChar_encChar (a / 4) (by have := h a (by simp); omega)
    have e2 := decChar_encChar (a % 4 * 16) (by omega)
    have ha : a < 256 := h a (by simp)
    simp [b64encode, b64decode, e1, e2]
    omega
  | [a, b], h => by
    have ha : a < 256 := h a (by simp)
    have hb : b < 256 := h b (by simp)
    have e1 := decChar_encChar (a / 4) (by omega)
    have e2 := decChar_encChar (a % 4 * 16 + b / 16) (by omega)
    have e3 := decChar_encChar (b % 16 * 4) (by omega)
    have n3 := encChar_ne_pad (b % 16 * 4) (by omega)
    simp [b64encode, b64decode, n3, e1, e2, e3]
    constructor <;> omega
  | a :: b :: c :: d :: rest, h => by
    have ha : a < 256 := h a (by simp)
    have hb : b < 256 := h b (by simp)
    have hc : c < 256 := h c (by simp)
    have e1 := decChar_encChar (a / 4) (by omega)
    have e2 := decChar_encChar (a % 4 * 16 + b / 16) (by omega)
    have e3 := decChar_encChar (b % 16 * 4 + c / 64) (by omega)
    have e4 := decChar_encChar (c % 64) (by omega)
    have n3 := encChar_ne_pad (b % 16 * 4 + c / 64) (by omega)
    have n4 := encChar_ne_pad (c % 64) (by omega)
    have ih := b64decode_b64encode (d :: rest)
      (fun x hx => h x (by simp at hx ⊢; tauto))
    simp [b64encode, b64decode, n3, n4, e1, e2, e3, e4, ih]
    refine ⟨by omega, by omega, by omega⟩
  | [a, b, c], h => by
    have ha : a < 256 := h a (by simp)
    have hb : b < 256 := h b (by simp)
    have hc : c < 256 := h c (by simp)
    have e1 := decChar_encChar (a / 4) (by omega)
    have e2 := decChar_encChar (a % 4 * 16 + b / 16) (by omega)
    have e3 := decChar_encChar (b % 16 * 4 + c / 64) (by omega)
    have e4 := decChar_encChar (c % 64) (by omega)
    have n3 := encChar_ne_pad (b % 16 * 4 + c / 64) (by omega)
    have n4 := encChar_ne_pad (c % 64) (by omega)
    simp [b64encode, b64decode, n3, n4, e1, e2, e3, e4]
    refine ⟨by omega, by omega, by omega⟩

/-! ### Preservation of the LinkTable invariant -/

/-- Under the invariant the two dictionaries are mutual inverses. -/
theorem inv_dget_iff {st : SocketTunnelIn} (h : LinkInv st) (c i : Nat) :
    dget st.sock_link c = some i ↔ dget st.link_sock i = some c := by
  obtain ⟨n1, n2, f12, f21, -, -, -⟩ := h
  constructor
  · intro hc
    exact dget_eq_some_of_mem n2 (f12 _ (mem_of_dget hc))
  · intro hi
    exact dget_eq_some_of_mem n1 (f21 _ (mem_of_dget hi))

theorem inv_onAccept {st : SocketTunnelIn} (acceptRes : Option Sock)
    (rpc : RpcOut) (sok : Bool) (h : LinkInv st)
    (hfresh : ∀ clt, acceptRes = some clt → dget st.sock_link clt = none) :
    LinkInv (st.onAccept acceptRes rpc sok).1 := by
  obtain ⟨n1, n2, f12, f21, i5, i6, i7⟩ := h
  match acceptRes with
  | none => exact ⟨n1, n2, f12, f21, i5, i6, i7⟩
  | some clt =>
    have hf := hfresh clt rfl
    match rpc with
    | .reply false =>
      exact ⟨n1, n2, f12, f21, i5, i6, fun q hq => Nat.lt_succ_of_lt (i7 q hq)⟩
    | .exn =>
      exact ⟨n1, n2, f12, f21, i5, i6, fun q hq => Nat.lt_succ_of_lt (i7 q hq)⟩
    | .reply true =>
      dsimp only [SocketTunnelIn.onAccept]
      refine ⟨dkeys_dset_nodup n1, dkeys_dset_nodup n2, ?_, ?_, ?_, ?_, ?_⟩
      · intro p hp
        rcases mem_dset.mp hp with h1 | ⟨h1, h2⟩
        · subst h1
          exact mem_dset.mpr (Or.inl rfl)
        · have hmem := f12 p h1
          have hlt : p.2 < st.next_id := i7 _ hmem
          exact mem_dset.mpr (Or.inr ⟨hmem, by simpa using Nat.ne_of_lt hlt⟩)
      · intro q hq
        rcases mem_dset.mp hq with h1 | ⟨h1, h2⟩
        · subst h1
          exact mem_dset.mpr (Or.inl rfl)
        · have hmem := f21 q h1
          have hne : q.2 ≠ clt := not_mem_of_dget_none hf _ hmem
          exact mem_dset.mpr (Or.inr ⟨hmem, by simpa using hne⟩)
      · intro s hs
        rw [dget_dset]
        rcases mem_sadd.mp hs with h1 | h1
        · simp [h1]
        · by_cases h2 : s = clt
          · simp [h2]
          · simpa [h2] using i5 s h1
      · intro p hp
        rcases mem_dset.mp hp with h1 | ⟨h1, h2⟩
        · subst h1
          exact mem_sadd.mpr (Or.inl rfl)
        · exact mem_sadd.mpr (Or.inr (i6 p h1))
      · intro q hq
        rcases mem_dset.mp hq with h1 | ⟨h1, h2⟩
        · subst h1; exact Nat.lt_succ_self _
        · exact Nat.lt_succ_of_lt (i7 q h1)

theorem inv_onClose {st st2 : SocketTunnelIn} {clt : Sock}
    {ops : List SockOp} {hops : List HerOp} (h : LinkInv st)
    (heq : st.onClose clt = .ok (st2, ops, hops)) : LinkInv st2 := by
  by_cases hc : clt ∈ st.clients_socks
  · rcases hs : dget st.sock_link clt with - | i
    · simp [SocketTunnelIn.onClose, hc, hs] at heq
    · have hls : dget st.link_sock i = some clt := (inv_dget_iff h _ _).mp hs
      simp [SocketTunnelIn.onClose, hc, hs, hls] at heq
      obtain ⟨heq1, -, -⟩ := heq
      obtain ⟨n1, n2, f12, f21, i5, i6, i7⟩ := h
      subst heq1
      refine ⟨dkeys_dremove_nodup n1, dkeys_dremove_nodup n2, ?_, ?_, ?_, ?_, ?_⟩
      · intro p hp
        obtain ⟨h1, h2⟩ := mem_dremove.mp hp
        have hmem := f12 p h1
        refine mem_dremove.mpr ⟨hmem, ?_⟩
        intro hpi
        have hpi2 : p.2 = i := by simpa using hpi
        have : p.1 = clt := dget_unique n2 (hpi2 ▸ hmem) (mem_of_dget hls)
        exact h2 (by simpa using this)
      · intro q hq
        obtain ⟨h1, h2⟩ := mem_dremove.mp hq
        have hmem := f21 q h1
        refine mem_dremove.mpr ⟨hmem, ?_⟩
        intro hqc
        have hqc2 : q.2 = clt := by simpa using hqc
        have : q.1 = i := dget_unique n1 (hqc2 ▸ hmem) (mem_of_dget hs)
        exact h2 (by simpa using this)
      · intro s hsm
        obtain ⟨h1, h2⟩ := mem_srem.mp hsm
        rw [dget_dremove]
        simpa [h2] using i5 s h1
      · intro p hp
        obtain ⟨h1, h2⟩ := mem_dremove.mp hp
        exact mem_srem.mpr ⟨i6 p h1, h2⟩
      · intro q hq
        exact i7 q (mem_dremove.mp hq).1
  · simp [SocketTunnelIn.onClose, hc] at heq
    obtain ⟨h1, -, -⟩ := heq
    subst h1
    exact h

/-- Under the invariant `_on_close` never raises. -/
theorem onClose_isOk {st : SocketTunnelIn} (clt : Sock) (h : LinkInv st) :
    ∃ r, st.onClose clt = .ok r := by
  by_cases hc : clt ∈ st.clients_socks
  · have i5 := h.2.2.2.2.1
    rcases hs : dget st.sock_link clt with - | i
    · exact absurd (hs ▸ i5 clt hc) (by simp)
    · have hls : dget st.link_sock i = some clt := (inv_dget_iff h _ _).mp hs
      refine ⟨({ st with clients_socks := srem st.clients_socks clt,
                         sock_link := dremove st.sock_link clt,
                         link_sock := dremove st.link_sock i },
               [SockOp.shutdown clt, SockOp.close clt],
               [HerOp.fire st.peer (closeLinkMsg st.tunnel_uid i)]), ?_⟩
      simp [SocketTunnelIn.onClose, hc, hs, hls]
  · refine ⟨(st, [], []), ?_⟩
    simp [SocketTunnelIn.onClose, hc]

/-! ### Characterizing `_on_close` and `close` under the invariant -/

theorem countSubj_append (subj : String) (l1 l2 : List HerOp) :
    countSubj subj (l1 ++ l2) = countSubj subj l1 + countSubj subj l2 := by
  induction l1 with
  | nil => simp [countSubj]
  | cons op l1 ih =>
    cases op <;> simp [countSubj, ih] <;> omega

theorem srem_of_not_mem {l : List Nat} {s : Nat} (h : s ∉ l) : srem l s = l := by
  induction l with
  | nil => rfl
  | cons x l ih =>
    have hne : s ≠ x := fun he => h (he ▸ List.mem_cons_self _ _)
    have : s ∉ l := fun hm => h (List.mem_cons_of_mem _ hm)
    simp [srem, hne, ih this]

theorem srems_nil_of_subset :
    ∀ (cs cl : List Nat), (∀ x ∈ cl, x ∈ cs) → srems cl cs = []
  | [], cl, h => List.eq_nil_iff_forall_not_mem.mpr
      fun x hx => absurd (h x hx) (List.not_mem_nil x)
  | c :: cs, cl, h => by
    simp only [srems]
    refine srems_nil_of_subset cs (srem cl c) ?_
    intro x hx
    obtain ⟨hx1, hx2⟩ := mem_srem.mp hx
    rcases List.mem_cons.mp (h x hx1) with h1 | h1
    · exact absurd h1 hx2
    · exact h1

theorem mem_sockCloseOps {s : Sock} {l : List Sock} (h : s ∈ l) :
    SockOp.close s ∈ sockCloseOps l := by
  induction l with
  | nil => simp at h
  | cons x l ih =>
    rcases List.mem_cons.mp h with h1 | h1
    · subst h1; simp [sockCloseOps]
    · simp [sockCloseOps, ih h1]

/-- Full characterization of one `_on_close` call under the invariant:
it succeeds, removes exactly the targeted socket from the client set,
leaves every other field alone, emits no tunnel-`close` frame, and closes
the socket when it was registered. -/
theorem onClose_spec (st : SocketTunnelIn) (c : Sock) (h : LinkInv st) :
    ∃ st1 ops1 hops1, st.onClose c = .ok (st1, ops1, hops1) ∧
      LinkInv st1 ∧
      st1.clients_socks = srem st.clients_socks c ∧
      st1.peer = st.peer ∧ st1.tunnel_uid = st.tunnel_uid ∧
      st1.server_socks = st.server_socks ∧ st1.running = st.running ∧
      st1.next_id = st.next_id ∧
      countSubj "herald/tunnel/close" hops1 = 0 ∧
      (c ∈ st.clients_socks → SockOp.close c ∈ ops1) := by
  by_cases hc : c ∈ st.clients_socks
  · have i5 := h.2.2.2.2.1
    rcases hs : dget st.sock_link c with - | i
    · exact absurd (hs ▸ i5 c hc) (by simp)
    · have hls : dget st.link_sock i = some c := (inv_dget_iff h _ _).mp hs
      have heq : st.onClose c =
          .ok ({ st with clients_socks := srem st.clients_socks c,
                         sock_link := dremove st.sock_link c,
                         link_sock := dremove st.link_sock i },
               [SockOp.shutdown c, SockOp.close c],
               [HerOp.fire st.peer (closeLinkMsg st.tunnel_uid i)]) := by
        simp [SocketTunnelIn.onClose, hc, hs, hls]
      refine ⟨_, _, _, heq, inv_onClose h heq, rfl, rfl, rfl, rfl, rfl, rfl,
              by simp [countSubj, closeLinkMsg], fun _ => by simp⟩
  · have heq : st.onClose c = .ok (st, [], []) := by
      simp [SocketTunnelIn.onClose, hc]
    exact ⟨_, _, _, heq, h, (srem_of_not_mem hc).symm, rfl, rfl, rfl, rfl, rfl,
           by simp [countSubj], fun hmem => absurd hmem hc⟩

/-- Characterization of the client loop of `close`. -/
theorem closeClients_spec (l : List Sock) (st : SocketTunnelIn)
    (h : LinkInv st) :
    ∃ st2 ops hops, closeClients st l = .ok (st2, ops, hops) ∧
      LinkInv st2 ∧
      st2.clients_socks = srems st.clients_socks l ∧
      st2.peer = st.peer ∧ st2.tunnel_uid = st.tunnel_uid ∧
      st2.server_socks = st.server_socks ∧ st2.running = st.running ∧
      st2.next_id = st.next_id ∧
      countSubj "herald/tunnel/close" hops = 0 ∧
      (∀ c ∈ st.clients_socks, c ∈ l → SockOp.close c ∈ ops) := by
  induction l generalizing st with
  | nil =>
    exact ⟨st, [], [], rfl, h, rfl, rfl, rfl, rfl, rfl, rfl,
           by simp [countSubj], by simp⟩
  | cons c cs ih =>
    obtain ⟨st1, ops1, hops1, e1, h1, ecl1, ep1, eu1, es1, er1, en1, ec1, em1⟩ :=
      onClose_spec st c h
    obtain ⟨st2, ops2, hops2, e2, h2, ecl2, ep2, eu2, es2, er2, en2, ec2, em2⟩ :=
      ih st1 h1
    refine ⟨st2, ops1 ++ ops2, hops1 ++ hops2, ?_, h2, ?_, ?_, ?_, ?_, ?_, ?_,
            ?_, ?_⟩
    · simp [closeClients, e1, e2]
    · rw [ecl2, ecl1]; rfl
    · rw [ep2, ep1]
    · rw [eu2, eu1]
    · rw [es2, es1]
    · rw [er2, er1]
    · rw [en2, en1]
    · simp [countSubj_append, ec1, ec2]
    · intro c2 hc2 hmem
      rcases List.mem_cons.mp hmem with h3 | h3
      · subst h3
        exact List.mem_append_left _ (em1 hc2)
      · by_cases h4 : c2 = c
        · subst h4
          exact List.mem_append_left _ (em1 hc2)
        · have : c2 ∈ st1.clients_socks := by
            rw [ecl1]; exact mem_srem.mpr ⟨hc2, h4⟩
          exact List.mem_append_right _ (em2 c2 this h3)

/-- Full characterization of `close` under the invariant. -/
theorem close_spec (st : SocketTunnelIn) (b : Bool) (h : LinkInv st) :
    ∃ st2 ops hops, st.close b = .ok (st2, ops, hops) ∧
      LinkInv st2 ∧
      st2.server_socks = [] ∧ st2.clients_socks = [] ∧
      st2.peer = none ∧ st2.tunnel_uid = none ∧ st2.running = false ∧
      st2.next_id = st.next_id ∧
      (∀ s ∈ st.server_socks, SockOp.close s ∈ ops) ∧
      (∀ c ∈ st.clients_socks, SockOp.close c ∈ ops) ∧
      countSubj "herald/tunnel/close" hops =
        (if b && st.peer.isSome then 1 else 0) ∧
      (b && st.peer.isSome = true →
        HerOp.fire st.peer (closeMsg st.tunnel_uid) ∈ hops) := by
  have h1 : LinkInv { st with running := false, server_socks := [] } := h
  obtain ⟨st2, cops, chops, e2, h2, ecl2, ep2, eu2, es2, er2, en2, ec2, em2⟩ :=
    closeClients_spec st.clients_socks
      { st with running := false, server_socks := [] } h1
  have hclnil : st2.clients_socks = [] := by
    rw [ecl2]
    exact srems_nil_of_subset _ _ (fun x hx => hx)
  refine ⟨{ st2 with clients_socks := [], tunnel_uid := none, peer := none },
          sockCloseOps st.server_socks ++ cops,
          chops ++ (if b && st.peer.isSome then
            [HerOp.fire st.peer (closeMsg st.tunnel_uid)] else []),
          ?_, ?_, ?_, rfl, rfl, rfl, ?_, ?_, ?_, ?_, ?_, ?_⟩
  · simp only [SocketTunnelIn.close, e2]
    rw [ep2, eu2]
  · obtain ⟨n1, n2, f12, f21, i5, i6, i7⟩ := h2
    refine ⟨n1, n2, f12, f21, by simp, ?_, i7⟩
    intro p hp
    exact absurd (hclnil ▸ i6 p hp) (by simp)
  · rw [es2]
  · rw [er2]
  · rw [en2]
  · intro s hs
    exact List.mem_append_left _ (mem_sockCloseOps hs)
  · intro c hc
    exact List.mem_append_right _ (em2 c hc hc)
  · rw [countSubj_append, ec2]
    by_cases hb2 : b = true ∧ st.peer.isSome = true <;>
      simp [hb2, countSubj, closeMsg]
  · intro hb
    have hb2 : b = true ∧ st.peer.isSome = true := by simpa using hb
    refine List.mem_append_right _ ?_
    simp [hb2, closeMsg]

/-- The LinkTable invariant holds in every reachable state. -/
theorem reach_linkInv {st : SocketTunnelIn} (h : Reach st) : LinkInv st := by
  induction h with
  | base => exact ⟨by simp [initState, dkeys], by simp [initState, dkeys],
      by simp [initState], by simp [initState], by simp [initState],
      by simp [initState], by simp [initState]⟩
  | setupStep st ty ai st2 b hr heq ih =>
    rcases ai with - | cands
    · simp [SocketTunnelIn.setup] at heq
    · simp only [SocketTunnelIn.setup] at heq
      split at heq
      · exact absurd heq (by simp)
      · obtain ⟨h1, -⟩ := by simpa using heq
        rw [← h1]
        exact ih
  | linkStep st uid p hr ih => exact ih
  | acceptStep st res rpc sok hr hfresh ih => exact inv_onAccept res rpc sok ih hfresh
  | closeLinkStep st clt st2 ops hops hr heq ih => exact inv_onClose ih heq
  | closeStep st b st2 ops hops hr heq ih =>
    obtain ⟨st3, ops3, hops3, e3, h3, -⟩ := close_spec st b ih
    rw [heq] at e3
    obtain ⟨h1, -⟩ := by simpa using e3
    rw [h1]
    exact h3

/-! ### Link id allocation along accept sequences -/

theorem idRange_eq_range' : ∀ (n start : Nat), idRange start n = List.range' start n
  | 0, _ => rfl
  | n + 1, start => by
    rw [idRange, idRange_eq_range' n (start + 1)]
    simp [List.range']

theorem onAccept_next_id (st : SocketTunnelIn) (res : Option Sock)
    (rpc : RpcOut) (sok : Bool) :
    ((st.onAccept res rpc sok).1).next_id
      = st.next_id + (match res with | some _ => 1 | none => 0) := by
  rcases res with - | clt
  · rfl
  · rcases rpc with b | -
    · rcases b <;> rfl
    · rfl

theorem onAccept_linkIds (st : SocketTunnelIn) (res : Option Sock)
    (rpc : RpcOut) (sok : Bool) :
    linkIdsOf (st.onAccept res rpc sok).2.2
      = (match res with | some _ => [st.next_id] | none => []) := by
  rcases res with - | clt
  · rfl
  · rcases rpc with b | -
    · rcases b <;> simp [SocketTunnelIn.onAccept, linkIdsOf, createLinkMsg]
    · simp [SocketTunnelIn.onAccept, linkIdsOf, createLinkMsg]

theorem runAccepts_ids (evs : List AcceptEv) :
    ∀ st : SocketTunnelIn,
      (runAccepts st evs).2 = idRange st.next_id (countAccepted evs) := by
  induction evs with
  | nil => intro st; simp [runAccepts, countAccepted, idRange]
  | cons e evs ih =>
    intro st
    rw [runAccepts]
    rw [onAccept_linkIds, ih, onAccept_next_id, countAccepted]
    rcases e.res with - | clt <;> simp [idRange, Nat.add_comm]

theorem onClose_next_id (st : SocketTunnelIn) (clt : Sock) :
    match st.onClose clt with
    | .ok (st2, _, _) => st2.next_id = st.next_id
    | .error _ => True := by
  by_cases hc : clt ∈ st.clients_socks
  · rcases hs : dget st.sock_link clt with - | i
    · simp [SocketTunnelIn.onClose, hc, hs]
    · by_cases hl : (dget st.link_sock i).isSome
      · simp [SocketTunnelIn.onClose, hc, hs, hl]
      · simp [SocketTunnelIn.onClose, hc, hs, hl]
  · simp [SocketTunnelIn.onClose, hc]

theorem closeClients_next_id :
    ∀ (l : List Sock) (st : SocketTunnelIn),
      match closeClients st l with
      | .ok (st2, _, _) => st2.next_id = st.next_id
      | .error _ => True := by
  intro l
  induction l with
  | nil => intro st; simp [closeClients]
  | cons c cs ih =>
    intro st
    rcases e1 : st.onClose c with e | r1
    · simp [closeClients, e1]
    · obtain ⟨st1, ops1, hops1⟩ := r1
      have h1 := onClose_next_id st c
      rw [e1] at h1
      rcases e2 : closeClients st1 cs with e | r2
      · simp [closeClients, e1, e2]
      · obtain ⟨st2, ops2, hops2⟩ := r2
        have h2 := ih st1
        rw [e2] at h2
        simp only [closeClients, e1, e2]
        exact h2.trans h1

theorem close_next_id (st : SocketTunnelIn) (b : Bool) :
    match st.close b with
    | .ok (st2, _, _) => st2.next_id = st.next_id
    | .error _ => True := by
  have h := closeClients_next_id
    ({ st with running := false, server_socks := [] }).clients_socks
    { st with running := false, server_socks := [] }
  rcases e : closeClients { st with running := false, server_socks := [] }
      ({ st with running := false, server_socks := [] }).clients_socks
    with er | r
  · simp [SocketTunnelIn.close, e]
  · obtain ⟨st2, cops, chops⟩ := r
    rw [e] at h
    simp only [SocketTunnelIn.close, e]
    exact h

theorem bindCands_mem {cands : List AddrCand} {c : AddrCand}
    (hm : c ∈ cands) (hok : c.ok = true) : c.sock ∈ bindCands cands := by
  induction cands with
  | nil => simp at hm
  | cons d cs ih =>
    rcases List.mem_cons.mp hm with h1 | h1
    · subst h1; simp [bindCands, hok]
    · by_cases hd : d.ok <;> simp [bindCands, hd, ih h1]

/-- Every `beans.Message` construction of `server.py` raises
`TypeError`, whatever frame it tries to build. -/
theorem buildMessage_typeError (subject : String) (tunnel : Option String)
    (link_id : Option Nat) (data : Option (List Nat)) :
    buildMessage subject tunnel link_id data = .error PyErr.typeError := rfl

/-- At the call level, `_on_close` on a socket in the client set never
returns normally: it either raises the `TypeError` of the `close_link`
construction or, on the dead dictionary-miss paths, a `KeyError`. -/
theorem onClosePy_mem_err (st : SocketTunnelIn) (c : Sock)
    (hc : c ∈ st.clients_socks) : (st.onClosePy c).2.2.2 ≠ none := by
  rcases hs : dget st.sock_link c with - | i
  · simp [SocketTunnelIn.onClosePy, hc, hs]
  · by_cases hl : (dget st.link_sock i).isSome
    · simp [SocketTunnelIn.onClosePy, hc, hs, hl, buildMessage_typeError]
    · simp [SocketTunnelIn.onClosePy, hc, hs, hl]

/-! ### The claims -/

/-- Claim C1: in every reachable state of a `SocketTunnelIn` instance the
connection-to-id map (`__sock_link`) and the id-to-connection map
(`__link_sock`) are mutual inverses: a connection `c` is registered under
id `i` in one map exactly when `i` maps back to `c` in the other, so no
connection is ever present in one map without the other. -/
theorem claim1_linkTable_inverse (st : SocketTunnelIn) (h : Reach st)
    (c i : Nat) :
    dget st.sock_link c = some i ↔ dget st.link_sock i = some c :=
  inv_dget_iff (reach_linkInv h) c i

/-- Witness for C1 at a concrete reachable state with one link. -/
theorem claim1_witness :
    dget wSt1.sock_link 5 = some 0 ↔ dget wSt1.link_sock 0 = some 5 :=
  claim1_linkTable_inverse wSt1
    (Reach.acceptStep _ _ _ _ (Reach.linkStep _ _ _ Reach.base)
      (fun clt he => by cases he; rfl)) 5 0

/-- Claim C2: link id allocation is strictly sequential and never reused:
a run of `_on_accept` events from the initial state allocates exactly the
ids `0, 1, 2, …` in acceptance order, counting every successful accept
whether or not the remote peer rejects it, and no operation ever
decrements the counter (`_on_accept` adds one per accepted connection,
`_on_close` and `close` leave it unchanged). -/
theorem claim2_linkId_allocation :
    (∀ evs : List AcceptEv,
      (runAccepts initState evs).2 = List.range (countAccepted evs)) ∧
    (∀ (st : SocketTunnelIn) (res : Option Sock) (rpc : RpcOut) (sok : Bool),
      st.next_id ≤ ((st.onAccept res rpc sok).1).next_id ∧
      ((st.onAccept res rpc sok).1).next_id
        = st.next_id + (match res with | some _ => 1 | none => 0)) ∧
    (∀ (st : SocketTunnelIn) (clt : Sock),
      match st.onClose clt with
      | .ok (st2, _, _) => st2.next_id = st.next_id
      | .error _ => True) ∧
    (∀ (st : SocketTunnelIn) (b : Bool),
      match st.close b with
      | .ok (st2, _, _) => st2.next_id = st.next_id
      | .error _ => True) := by
  refine ⟨?_, ?_, onClose_next_id, close_next_id⟩
  · intro evs
    rw [runAccepts_ids evs initState, idRange_eq_range', List.range_eq_range']
    rfl
  · intro st res rpc sok
    have h := onAccept_next_id st res rpc sok
    exact ⟨by rw [h]; omega, h⟩

/-- Claim C3 (code evaluation at the failing input): when a linked
session accepts a client socket, the `TypeError` from `beans.Message`
escapes `_on_accept` before the `create_link` RPC is ever attempted:
whatever the RPC or shutdown outcomes would have been, the accepted
socket is neither closed (it leaks) nor registered, no messaging
operation happens, and the allocated id is still consumed. -/
theorem claim3_accept_leak (rpc : RpcOut) (sok : Bool) :
    stC3.onAcceptPy (some 9) rpc sok
      = ({ stC3 with next_id := 1 }, [], [], some PyErr.typeError) := rfl

/-- Claim C4 counterexample: `BindError` is not the only error `setup`
lets escape — when address resolution itself fails, the resolver error
(`socket.gaierror`, distinct from the bind error) escapes to the
caller. -/
theorem claim4_counterexample :
    initState.setup SockTy.stream none = .error SetupErr.gaierror ∧
    SetupErr.gaierror ≠ SetupErr.bindError :=
  ⟨rfl, by decide⟩

/-- Claim C4 as amended: for a fresh session whose address resolution
succeeds, `setup` fails if and only if zero candidates can be
created+bound+listened, and then with the bind error; one candidate
failing is skipped and never fatal while another succeeds; but when
resolution itself fails, the distinct resolver error escapes as well. -/
theorem claim4_bind_error (st : SocketTunnelIn) (ty : SockTy)
    (cands : List AddrCand) (h : st.server_socks = []) :
    (st.setup ty (some cands) = .error SetupErr.bindError
      ↔ bindCands cands = []) ∧
    (bindCands cands ≠ [] →
      st.setup ty (some cands)
        = .ok ({ st with server_socks := bindCands cands }, true)) ∧
    (∀ c ∈ cands, c.ok = true → c.sock ∈ bindCands cands) ∧
    st.setup ty none = .error SetupErr.gaierror := by
  refine ⟨?_, ?_, fun c hm hok => bindCands_mem hm hok, by cases ty <;> rfl⟩
  · by_cases hb : bindCands cands = [] <;>
      cases ty <;> simp [SocketTunnelIn.setup, h, hb]
  · intro hb
    cases ty <;> simp [SocketTunnelIn.setup, h, hb]

/-- Witness for C4 at a concrete candidate list with one failing and one
succeeding candidate. -/
theorem claim4_witness :
    initState.server_socks = [] ∧
    initState.setup SockTy.stream (some [⟨3, false⟩, ⟨4, true⟩])
      = .ok ({ initState with server_socks := [4] }, true) :=
  ⟨rfl, (claim4_bind_error initState SockTy.stream [⟨3, false⟩, ⟨4, true⟩]
    rfl).2.1 (by decide)⟩

/-- Claim C5 counterexample: with the same single bindable candidate,
`setup` succeeds for a stream socket but fails with the bind error for
a datagram socket, because `listen` fails on datagram sockets — the
claimed uniformity of outcomes is false. -/
theorem claim5_counterexample :
    initState.setupTy SockTy.stream (some [⟨3, true⟩])
      = .ok ({ initState with server_socks := [3] }, true) ∧
    initState.setupTy SockTy.dgram (some [⟨3, true⟩])
      = .error SetupErr.bindError :=
  ⟨rfl, rfl⟩

/-- Claim C5 as amended: the code of `setup` performs the same
create+bind+listen steps for both socket types, but `listen` fails on
every datagram socket and that failure is swallowed like any candidate
failure, so on a fresh session datagram `setup` always fails with the
bind error, while stream `setup` fails exactly when no candidate
binds. -/
theorem claim5_datagram_never_listens (st : SocketTunnelIn)
    (cands : List BindCand) (h : st.server_socks = []) :
    st.setupTy SockTy.dgram (some cands) = .error SetupErr.bindError ∧
    bindCandsTy SockTy.dgram cands = [] ∧
    (st.setupTy SockTy.stream (some cands) = .error SetupErr.bindError
      ↔ bindCandsTy SockTy.stream cands = []) := by
  have hd : bindCandsTy SockTy.dgram cands = [] := by
    induction cands with
    | nil => rfl
    | cons c cs ih => simp [bindCandsTy, listenOk, ih]
  refine ⟨by simp [SocketTunnelIn.setupTy, h, hd], hd, ?_⟩
  by_cases hb : bindCandsTy SockTy.stream cands = [] <;>
    simp [SocketTunnelIn.setupTy, h, hb]

/-- Witness for C5 at a concrete bindable candidate. -/
theorem claim5_witness :
    initState.server_socks = [] ∧
    initState.setupTy SockTy.dgram (some [⟨3, true⟩])
      = .error SetupErr.bindError :=
  ⟨rfl, (claim5_datagram_never_listens initState [⟨3, true⟩] rfl).1⟩

/-- Claim C6 (code evaluation at the failing input): on a registered
link, `_on_recv` raises `TypeError` at the `beans.Message` construction
and emits no `data` frame for any chunk (an unknown socket is still
ignored); the `send` half of the claim does hold — it writes back
exactly the base64-decoded bytes of its argument. -/
theorem claim6_recv_never_emits :
    (∀ data : List Nat, stC6.onRecvPy 5 data = ([], some PyErr.typeError)) ∧
    stC6.onRecvPy 7 [104] = ([], none) ∧
    stC6.send 0 (b64encode [104, 105]) = [SockOp.write 5 [104, 105]] :=
  ⟨fun _ => rfl, rfl, by decide⟩

/-- Claim C7 (code evaluation at the failing input): with a peer
associated, `close(send_close := true)` raises `TypeError` at the
`beans.Message` construction: zero `herald/tunnel/close` frames are
emitted and the tunnel uid and peer are never cleared, though the
server sockets were already closed and dropped;
`close(send_close := false)` completes, emits nothing and clears the
whole session state. -/
theorem claim7_close_raises :
    stC7.closePy true
      = ({ stC7 with running := false, server_socks := [] },
         [SockOp.shutdown 2, SockOp.close 2], [], some PyErr.typeError) ∧
    ({ stC7 with running := false, server_socks := [] }).peer = some 4 ∧
    ({ stC7 with running := false, server_socks := [] }).tunnel_uid
      = some "t" ∧
    stC7.closePy false
      = (stC8, [SockOp.shutdown 2, SockOp.close 2], [], none) ∧
    countSubj "herald/tunnel/close" [] = 0 :=
  ⟨rfl, rfl, rfl, rfl, rfl⟩

/-- Claim C8: `close` is idempotent — whenever a first `close` completes
(returns rather than raising), the state it leaves has empty socket
lists and a cleared peer and uid, so a second `close` with any flag
returns that same state untouched, performing no socket operation and
emitting no message at all. -/
theorem claim8_second_close_noop (st st1 : SocketTunnelIn) (b b2 : Bool)
    (ops : List SockOp) (hops : List HerOp)
    (h1 : st.closePy b = (st1, ops, hops, none)) :
    st1.closePy b2 = (st1, [], [], none) := by
  rcases hc : st.clients_socks with - | ⟨c, cs⟩
  · by_cases hb : (b && st.peer.isSome) = true
    · simp [SocketTunnelIn.closePy, hc, closeClientsPy, hb,
        buildMessage_typeError] at h1
    · have hb2 : (b && st.peer.isSome) = false := by simpa using hb
      simp [SocketTunnelIn.closePy, hc, closeClientsPy, hb2] at h1
      obtain ⟨h1st, -, -⟩ := h1
      rw [← h1st]
      cases b2 <;> rfl
  · exfalso
    obtain ⟨st2, ops2, hops2, er, h2⟩ :
        ∃ st2 ops2 hops2 er,
          ({ st with running := false, server_socks := [] }).onClosePy c
            = (st2, ops2, hops2, er) :=
      ⟨_, _, _, _, rfl⟩
    have hmem :
        c ∈ ({ st with running := false, server_socks := [] }).clients_socks := by
      show c ∈ st.clients_socks
      rw [hc]
      exact List.mem_cons_self _ _
    have hne := onClosePy_mem_err _ c hmem
    rw [h2] at hne
    rcases er with - | e
    · exact hne rfl
    · rw [hc] at h2
      simp [SocketTunnelIn.closePy, hc, closeClientsPy, h2] at h1

/-- Witness for C8: a completing first close (no peer message requested)
followed by a second close. -/
theorem claim8_witness_faithful :
    stC7.closePy false
      = (stC8, [SockOp.shutdown 2, SockOp.close 2], [], none) ∧
    stC8.closePy true = (stC8, [], [], none) :=
  ⟨rfl, claim8_second_close_noop stC7 stC8 false true
    [SockOp.shutdown 2, SockOp.close 2] [] rfl⟩

/-- Claim C9: closing one registered link removes exactly that
`(connection, id)` pair from both maps and the client set and closes
only that socket, leaving every other link, the server sockets, the
run flag and the counter untouched (the handler then raises at the
`close_link` construction, after all of these effects); `_on_close` on
an unregistered socket returns normally with no side effects. -/
theorem claim9_isolation_faithful (st : SocketTunnelIn) (c : Sock) (i : Nat)
    (h : LinkInv st) (hreg : dget st.sock_link c = some i) :
    OnCloseEffect st c i ∧
    (∀ c3, c3 ∉ st.clients_socks → st.onClosePy c3 = (st, [], [], none)) := by
  constructor
  · have hc : c ∈ st.clients_socks := h.2.2.2.2.2.1 _ (mem_of_dget hreg)
    have hls : dget st.link_sock i = some c := (inv_dget_iff h _ _).mp hreg
    refine ⟨{ st with clients_socks := srem st.clients_socks c,
                      sock_link := dremove st.sock_link c,
                      link_sock := dremove st.link_sock i },
            by simp [SocketTunnelIn.onClosePy, hc, hreg, hls,
                     buildMessage_typeError],
            ?_, ?_, ?_, ?_, ?_, ?_, rfl, rfl, rfl, rfl, rfl⟩
    · simp [dget_dremove]
    · simp [dget_dremove]
    · simp [mem_srem]
    · intro c2 hne
      simp [dget_dremove, hne]
    · intro c2 hne
      simp [mem_srem, hne]
    · intro i2 hne
      simp [dget_dremove, hne]
  · intro c3 hc3
    simp [SocketTunnelIn.onClosePy, hc3]

/-- Witness for C9 at a session holding two links, closing the first. -/
theorem claim9_witness_faithful :
    LinkInv stC9 ∧ dget stC9.sock_link 5 = some 0 ∧ OnCloseEffect stC9 5 0 :=
  ⟨by decide, rfl, (claim9_isolation_faithful stC9 5 0 (by decide) rfl).1⟩

/-- Claim C10: every `beans.Message(subject, content)` construction site
of `server.py` passes two positional arguments while `Message.__init__`
requires three (`target_id`, `target_type`, `subject`), so each raises
`TypeError`; moreover the bare name `target` read by the body resolves
nowhere, and no positional argument count makes the constructor succeed,
so no operation of `SocketTunnelIn` can produce a wire frame through
it. -/
theorem claim10_message_ctor_fails :
    serverMessageCalls.map (fun sc => callMessage sc.2)
      = [.typeError, .typeError, .typeError, .typeError] ∧
    messageInitRequired = 3 ∧
    resolvable "target" = false ∧
    (∀ n : Nat, (callMessage n).isOk = false) := by
  refine ⟨by decide, by decide, by decide, ?_⟩
  intro n
  by_cases h : n < messageInitRequired
  · simp [callMessage, h, CallOutcome.isOk]
  · simp only [callMessage, h, if_false]
    decide
